import Mathlib

/-!
Formal model of the teneo-bot source (`bot.py`) and proofs of the
specification properties stated for it.

The Python program is shallowly embedded as follows.

* Decoded JSON values (`r.json()` results, request bodies, Python `None`)
  are the inductive type `Json`; Python truthiness (`if data:`) is
  `Json.truthy`; Python `dict.get` is `pyGet` (it raises `AttributeError`
  on non-dict receivers, modelled with `Except`); Python numeric `>=`
  comparison is `pyGeNum` (it raises `TypeError` on non-numeric operands).
  JSON numbers are modelled as exact rationals `ℚ`; JSON arrays do not
  occur in any payload the program reads and are omitted.
* The network is an oracle `Net`: for each method, URL and 0-based attempt
  index it yields either `some payload` (transport success, non-error
  status, decodable body — the case where `requests.request` plus
  `raise_for_status` plus `r.json()` return) or `none` (any
  `requests.RequestException`: transport failure, error status, or an
  undecodable body).
* Every modelled operation additionally returns the list of observable
  `Event`s it produced, in order: HTTP attempts, `time.sleep` calls, and
  log lines.  Log messages are embedded structurally (`Msg`), one
  constructor per format string of the source, carrying the interpolated
  values.
* Functions that can raise a Python exception return `Except String α`;
  functions that cannot raise return plainly.  A Python function with no
  `return` statement returns `Json.null` (Python `None`).
-/

inductive Json where
  | null
  | bool (b : Bool)
  | num (q : ℚ)
  | str (s : String)
  | obj (fields : List (String × Json))

/-- Python truthiness of a decoded JSON value (`if data:`). -/
def Json.truthy : Json → Bool
  | .null => false
  | .bool b => b
  | .num q => decide (q ≠ 0)
  | .str s => s != ""
  | .obj fs => !fs.isEmpty

/-- Numeric view of a Python value: `int`/`float` directly, `bool` as 1/0
(Python booleans compare as integers); anything else is not a number. -/
def Json.asNum : Json → Option ℚ
  | .num q => some q
  | .bool b => some (if b then 1 else 0)
  | _ => none

/-- Python `data.get(key, default)`: field lookup on a dict, raising
`AttributeError` when the receiver is not a dict. -/
def pyGet (j : Json) (key : String) (dflt : Json) : Except String Json :=
  match j with
  | .obj fields => .ok ((fields.lookup key).getD dflt)
  | _ => .error "AttributeError"

/-- Python truthiness of an optional value: `None` is falsy. -/
def pyTruthyOpt : Option Json → Bool
  | none => false
  | some j => j.truthy

/-- Python `x >= q` where `x` is a decoded JSON value: raises `TypeError`
unless `x` is numeric. -/
def pyGeNum (j : Json) (q : ℚ) : Except String Bool :=
  match j.asNum with
  | some x => Except.ok (decide (q ≤ x))
  | none => Except.error "TypeError"

/-- Log messages of `bot.py`, one constructor per format string, carrying
the interpolated values. -/
inductive Msg where
  | requestError (url : String)
  | maxRetries (url : String)
  | currentRewards (amount : Json)
  | farmingPerformed (strategy : String)
  | farmingFailed
  | rewardsClaimed (payload : Json)
  | claimFailed
  | rewardsRestaked
  | restakeFailed
  | strategySelected (strategy : String) (activity : Json)
  | activityTooLow (activity : Json)
  | notEnoughRewards
  | compounded (rewards : Json)
  | walletNotStaked
  | stakingActive
  | botStarted
  | botCrashed

/-- Observable events of a run, in order of occurrence. -/
inductive Event where
  | http (method url : String) (body : Option Json)
  | sleep (n : Nat)
  | log (level : String) (msg : Msg)
  | taskRun (id : Nat)

/-- The network oracle: outcome of the HTTP attempt with the given
0-based index for the given method and URL. -/
structure Net where
  resp : String → String → Nat → Option Json

def MAX_RETRIES : Nat := 3

def ACTIVITY_THRESHOLD : ℚ := 75

def REWARD_THRESHOLD : ℚ := 1

def API_BASE : String := "https://api.teneo.finance/v1"

/-- Loop body of `safe_request`, recursing over the remaining attempts of
`range(MAX_RETRIES)`; `attempt` is the current 0-based index. -/
def safe_request_aux (net : Net) (method url : String) (body : Option Json) :
    Nat → Nat → List Event × Option Json
  | _, 0 => ([Event.log "error" (Msg.maxRetries url)], none)
  | attempt, fuel+1 =>
    match net.resp method url attempt with
    | some payload => ([Event.http method url body], some payload)
    | none =>
      let rest := safe_request_aux net method url body (attempt+1) fuel
      (Event.http method url body :: Event.log "error" (Msg.requestError url) ::
        Event.sleep (2*(attempt+1)) :: rest.1, rest.2)

/-- `safe_request(method, url, **kwargs)`: up to `MAX_RETRIES` attempts;
each failed attempt logs an error and sleeps `2*(attempt+1)`; on success
the decoded payload is returned at once; on exhaustion an error is logged
and `None` is returned. -/
def safe_request (net : Net) (method url : String) (body : Option Json) :
    List Event × Option Json :=
  safe_request_aux net method url body 0 MAX_RETRIES

/-- Number of HTTP attempts recorded in an event list. -/
def httpCount (evs : List Event) : Nat :=
  (evs.filter fun e => match e with | Event.http _ _ _ => true | _ => false).length

theorem sr_aux_http (net : Net) (m u : String) (b : Option Json) :
    ∀ f a m2 u2 b2, Event.http m2 u2 b2 ∈ (safe_request_aux net m u b a f).1 →
      m2 = m ∧ u2 = u ∧ b2 = b := by
  intro f
  induction f with
  | zero => intro a m2 u2 b2 h; simp [safe_request_aux] at h
  | succ n ih =>
    intro a m2 u2 b2 h
    rw [safe_request_aux] at h
    cases hr : net.resp m u a with
    | some p =>
      rw [hr] at h; simp at h; exact ⟨h.1, h.2.1, h.2.2⟩
    | none =>
      rw [hr] at h
      simp at h
      rcases h with ⟨h1, h2, h3⟩ | h
      · exact ⟨h1, h2, h3⟩
      · exact ih _ _ _ _ h

theorem sr_http (net : Net) (m u : String) (b : Option Json) :
    ∀ m2 u2 b2, Event.http m2 u2 b2 ∈ (safe_request net m u b).1 →
      m2 = m ∧ u2 = u ∧ b2 = b :=
  fun m2 u2 b2 h => sr_aux_http net m u b MAX_RETRIES 0 m2 u2 b2 h

theorem sr_first (net : Net) (m u : String) (b : Option Json) :
    ∃ t, (safe_request net m u b).1 = Event.http m u b :: t := by
  unfold safe_request MAX_RETRIES safe_request_aux
  cases h : net.resp m u 0 <;> simp

theorem sr_aux_log (net : Net) (m u : String) (b : Option Json) :
    ∀ f a lvl msg, Event.log lvl msg ∈ (safe_request_aux net m u b a f).1 →
      msg = Msg.requestError u ∨ msg = Msg.maxRetries u := by
  intro f
  induction f with
  | zero =>
    intro a lvl msg h
    simp [safe_request_aux] at h
    exact Or.inr h.2
  | succ n ih =>
    intro a lvl msg h
    rw [safe_request_aux] at h
    cases hr : net.resp m u a with
    | some p => rw [hr] at h; simp at h
    | none =>
      rw [hr] at h
      simp at h
      rcases h with ⟨_, h2⟩ | h
      · exact Or.inl h2
      · exact ih _ _ _ h

theorem sr_log (net : Net) (m u : String) (b : Option Json) :
    ∀ lvl msg, Event.log lvl msg ∈ (safe_request net m u b).1 →
      msg = Msg.requestError u ∨ msg = Msg.maxRetries u :=
  fun lvl msg h => sr_aux_log net m u b MAX_RETRIES 0 lvl msg h

theorem sr_aux_count (net : Net) (m u : String) (b : Option Json) :
    ∀ f a, httpCount (safe_request_aux net m u b a f).1 ≤ f := by
  intro f
  induction f with
  | zero => intro a; simp [safe_request_aux, httpCount]
  | succ n ih =>
    intro a
    rw [safe_request_aux]
    cases hr : net.resp m u a with
    | some p => simp [httpCount]
    | none =>
      simp only [httpCount, List.filter, List.length]
      have := ih (a+1)
      simp only [httpCount] at this
      omega

/-- C1: `safe_request` performs at most `MAX_RETRIES = 3` attempts, and if
all attempts before index `k` fail and attempt `k` succeeds with payload
`p`, the call returns `p` and performs exactly `k+1` attempts (none after
the successful one). -/
theorem safe_request_at_most_three_attempts_and_stops_on_success
    (net : Net) (m u : String) (b : Option Json) :
    httpCount (safe_request net m u b).1 ≤ MAX_RETRIES
  ∧ ∀ k p, k < MAX_RETRIES → (∀ i, i < k → net.resp m u i = none) →
      net.resp m u k = some p →
      (safe_request net m u b).2 = some p
    ∧ httpCount (safe_request net m u b).1 = k + 1 := by
  constructor
  · exact sr_aux_count net m u b MAX_RETRIES 0
  · intro k p hk hfail hsucc
    rw [MAX_RETRIES] at hk
    interval_cases k
    · constructor
      · simp [safe_request, MAX_RETRIES, safe_request_aux, hsucc]
      · simp [safe_request, MAX_RETRIES, safe_request_aux, hsucc, httpCount, List.filter]
    · have h0 := hfail 0 (by norm_num)
      constructor
      · simp [safe_request, MAX_RETRIES, safe_request_aux, h0, hsucc]
      · simp [safe_request, MAX_RETRIES, safe_request_aux, h0, hsucc, httpCount, List.filter]
    · have h0 := hfail 0 (by norm_num)
      have h1 := hfail 1 (by norm_num)
      constructor
      · simp [safe_request, MAX_RETRIES, safe_request_aux, h0, h1, hsucc]
      · simp [safe_request, MAX_RETRIES, safe_request_aux, h0, h1, hsucc, httpCount,
          List.filter]

def c1Net : Net := ⟨fun _ _ i => if i == 1 then some (Json.num 7) else none⟩

/-- Witness for C1: a network that fails at attempt 0 and succeeds at
attempt 1 yields the payload after exactly 2 attempts. -/
theorem safe_request_at_most_three_attempts_and_stops_on_success_witness :
    (safe_request c1Net "GET" "u" none).2 = some (Json.num 7)
  ∧ httpCount (safe_request c1Net "GET" "u" none).1 = 2 :=
  (safe_request_at_most_three_attempts_and_stops_on_success c1Net "GET" "u" none).2
    1 (Json.num 7) (by norm_num [MAX_RETRIES])
    (fun i hi => by interval_cases i; rfl) rfl

/-- C10: when all three attempts fail, the full trace of `safe_request` is
attempt, error log, sleep 2, attempt, error log, sleep 4, attempt, error
log, sleep 6, exhaustion log — i.e. the backoff sleep `2*(attempt+1)` runs
after every failed attempt, including the last one (sleeps 2, 4 and 6,
totalling 12), and only then is the failure signal `None` returned. -/
theorem safe_request_sleeps_after_every_failed_attempt
    (net : Net) (m u : String) (b : Option Json)
    (h : ∀ i, i < MAX_RETRIES → net.resp m u i = none) :
    (safe_request net m u b).1 =
      [Event.http m u b, Event.log "error" (Msg.requestError u), Event.sleep 2,
       Event.http m u b, Event.log "error" (Msg.requestError u), Event.sleep 4,
       Event.http m u b, Event.log "error" (Msg.requestError u), Event.sleep 6,
       Event.log "error" (Msg.maxRetries u)]
  ∧ (safe_request net m u b).2 = none := by
  have h0 := h 0 (by norm_num [MAX_RETRIES])
  have h1 := h 1 (by norm_num [MAX_RETRIES])
  have h2 := h 2 (by norm_num [MAX_RETRIES])
  constructor
  · simp [safe_request, MAX_RETRIES, safe_request_aux, h0, h1, h2]
  · simp [safe_request, MAX_RETRIES, safe_request_aux, h0, h1, h2]

def c10Net : Net := ⟨fun _ _ _ => none⟩

/-- Witness for C10: a network that always fails produces exactly the
exhaustion trace with sleeps 2, 4 and 6. -/
theorem safe_request_sleeps_after_every_failed_attempt_witness :
    (safe_request c10Net "GET" "u" none).1 =
      [Event.http "GET" "u" none, Event.log "error" (Msg.requestError "u"), Event.sleep 2,
       Event.http "GET" "u" none, Event.log "error" (Msg.requestError "u"), Event.sleep 4,
       Event.http "GET" "u" none, Event.log "error" (Msg.requestError "u"), Event.sleep 6,
       Event.log "error" (Msg.maxRetries "u")]
  ∧ (safe_request c10Net "GET" "u" none).2 = none :=
  safe_request_sleeps_after_every_failed_attempt c10Net "GET" "u" none
    (fun _ _ => rfl)

def activityUrl (wallet : String) : String := API_BASE ++ "/activity/" ++ wallet

def peakUrl : String := API_BASE ++ "/rewards/peak-times"

def rewardsUrl (wallet : String) : String := API_BASE ++ "/rewards/current/" ++ wallet

def stakingStatusUrl (wallet : String) : String := API_BASE ++ "/staking/status/" ++ wallet

def farmUrl : String := API_BASE ++ "/farm"

def claimUrl : String := API_BASE ++ "/rewards/claim"

def stakeUrl : String := API_BASE ++ "/staking/stake"

def farmBody (wallet strategy : String) : Json :=
  Json.obj [("wallet", Json.str wallet), ("strategy", Json.str strategy)]

def claimBody (wallet : String) : Json := Json.obj [("wallet", Json.str wallet)]

def stakeBody (wallet : String) : Json := Json.obj [("wallet", Json.str wallet)]

/-- `get_activity_score()`: `data.get("activityScore", 0) if data else 0`. -/
def get_activity_score (net : Net) (wallet : String) : List Event × Except String Json :=
  let r := safe_request net "GET" (activityUrl wallet) none
  (r.1, match r.2 with
        | none => Except.ok (Json.num 0)
        | some j =>
          if j.truthy then pyGet j "activityScore" (Json.num 0) else Except.ok (Json.num 0))

/-- `is_peak_time()`: `data.get("isPeak", False) if data else False`. -/
def is_peak_time (net : Net) (_wallet : String) : List Event × Except String Json :=
  let r := safe_request net "GET" peakUrl none
  (r.1, match r.2 with
        | none => Except.ok (Json.bool false)
        | some j =>
          if j.truthy then pyGet j "isPeak" (Json.bool false) else Except.ok (Json.bool false))

/-- `get_current_rewards()`: reads the unclaimed amount (default 0), then
logs it at info level; the log line is only reached when the extraction
did not raise. -/
def get_current_rewards (net : Net) (wallet : String) : List Event × Except String Json :=
  let r := safe_request net "GET" (rewardsUrl wallet) none
  match (match r.2 with
         | none => Except.ok (Json.num 0)
         | some j =>
           if j.truthy then pyGet j "unclaimed" (Json.num 0)
           else Except.ok (Json.num 0) : Except String Json) with
  | Except.error e => (r.1, Except.error e)
  | Except.ok v => (r.1 ++ [Event.log "info" (Msg.currentRewards v)], Except.ok v)

/-- `get_staking_status()`: `data.get("isStaked", False) if data else False`. -/
def get_staking_status (net : Net) (wallet : String) : List Event × Except String Json :=
  let r := safe_request net "GET" (stakingStatusUrl wallet) none
  (r.1, match r.2 with
        | none => Except.ok (Json.bool false)
        | some j =>
          if j.truthy then pyGet j "isStaked" (Json.bool false)
          else Except.ok (Json.bool false))

/-- `perform_farming_action(strategy)`: POST to `/farm`, log success when
the decoded payload is truthy, else log failure; returns `None`. -/
def perform_farming_action (net : Net) (wallet strategy : String) : List Event × Json :=
  let r := safe_request net "POST" farmUrl (some (farmBody wallet strategy))
  if pyTruthyOpt r.2 then
    (r.1 ++ [Event.log "info" (Msg.farmingPerformed strategy)], Json.null)
  else
    (r.1 ++ [Event.log "error" Msg.farmingFailed], Json.null)

/-- `claim_rewards()`: POST to `/rewards/claim`; on a truthy payload logs
it, else logs failure; returns `None`. -/
def claim_rewards (net : Net) (wallet : String) : List Event × Json :=
  let r := safe_request net "POST" claimUrl (some (claimBody wallet))
  match r.2 with
  | some d =>
    if d.truthy then (r.1 ++ [Event.log "info" (Msg.rewardsClaimed d)], Json.null)
    else (r.1 ++ [Event.log "error" Msg.claimFailed], Json.null)
  | none => (r.1 ++ [Event.log "error" Msg.claimFailed], Json.null)

/-- `stake_rewards()`: POST to `/staking/stake`, log success when the
decoded payload is truthy, else log failure; returns `None`. -/
def stake_rewards (net : Net) (wallet : String) : List Event × Json :=
  let r := safe_request net "POST" stakeUrl (some (stakeBody wallet))
  if pyTruthyOpt r.2 then
    (r.1 ++ [Event.log "info" Msg.rewardsRestaked], Json.null)
  else
    (r.1 ++ [Event.log "error" Msg.restakeFailed], Json.null)

theorem gcr_http (net : Net) (w : String) :
    ∀ m2 u2 b2, Event.http m2 u2 b2 ∈ (get_current_rewards net w).1 →
      m2 = "GET" ∧ u2 = rewardsUrl w ∧ b2 = none := by
  intro m2 u2 b2 h
  simp only [get_current_rewards] at h
  split at h
  · exact sr_http net _ _ none m2 u2 b2 h
  · simp at h
    exact sr_http net _ _ none m2 u2 b2 h

theorem pfa_http (net : Net) (w s : String) :
    ∀ m2 u2 b2, Event.http m2 u2 b2 ∈ (perform_farming_action net w s).1 →
      m2 = "POST" ∧ u2 = farmUrl ∧ b2 = some (farmBody w s) := by
  intro m2 u2 b2 h
  simp only [perform_farming_action] at h
  split at h <;> simp at h <;> exact sr_http net _ _ _ m2 u2 b2 h

theorem cr_http (net : Net) (w : String) :
    ∀ m2 u2 b2, Event.http m2 u2 b2 ∈ (claim_rewards net w).1 →
      m2 = "POST" ∧ u2 = claimUrl ∧ b2 = some (claimBody w) := by
  intro m2 u2 b2 h
  simp only [claim_rewards] at h
  split at h
  · split at h <;> simp at h <;> exact sr_http net _ _ _ m2 u2 b2 h
  · simp at h
    exact sr_http net _ _ _ m2 u2 b2 h

theorem skr_http (net : Net) (w : String) :
    ∀ m2 u2 b2, Event.http m2 u2 b2 ∈ (stake_rewards net w).1 →
      m2 = "POST" ∧ u2 = stakeUrl ∧ b2 = some (stakeBody w) := by
  intro m2 u2 b2 h
  simp only [stake_rewards] at h
  split at h <;> simp at h <;> exact sr_http net _ _ _ m2 u2 b2 h

theorem pfa_mem (net : Net) (w s : String) :
    Event.http "POST" farmUrl (some (farmBody w s)) ∈ (perform_farming_action net w s).1 := by
  obtain ⟨t, ht⟩ := sr_first net "POST" farmUrl (some (farmBody w s))
  simp only [perform_farming_action]
  split <;> simp [ht]

theorem cr_mem (net : Net) (w : String) :
    Event.http "POST" claimUrl (some (claimBody w)) ∈ (claim_rewards net w).1 := by
  obtain ⟨t, ht⟩ := sr_first net "POST" claimUrl (some (claimBody w))
  simp only [claim_rewards]
  split
  · split <;> simp [ht]
  · simp [ht]

theorem skr_mem (net : Net) (w : String) :
    Event.http "POST" stakeUrl (some (stakeBody w)) ∈ (stake_rewards net w).1 := by
  obtain ⟨t, ht⟩ := sr_first net "POST" stakeUrl (some (stakeBody w))
  simp only [stake_rewards]
  split <;> simp [ht]

theorem pfa_success_iff (net : Net) (w s s2 : String) :
    Event.log "info" (Msg.farmingPerformed s2) ∈ (perform_farming_action net w s).1 ↔
      s2 = s ∧ pyTruthyOpt (safe_request net "POST" farmUrl (some (farmBody w s))).2 = true := by
  simp only [perform_farming_action]
  cases hT : pyTruthyOpt (safe_request net "POST" farmUrl (some (farmBody w s))).2 <;>
    simp [hT]
  · intro h
    rcases sr_log net "POST" farmUrl (some (farmBody w s)) "info" (Msg.farmingPerformed s2) h with
      h2 | h2 <;> simp at h2
  · intro h
    rcases sr_log net "POST" farmUrl (some (farmBody w s)) "info" (Msg.farmingPerformed s2) h with
      h2 | h2 <;> simp at h2

theorem pfa_failure_iff (net : Net) (w s : String) :
    Event.log "error" Msg.farmingFailed ∈ (perform_farming_action net w s).1 ↔
      pyTruthyOpt (safe_request net "POST" farmUrl (some (farmBody w s))).2 = false := by
  simp only [perform_farming_action]
  cases hT : pyTruthyOpt (safe_request net "POST" farmUrl (some (farmBody w s))).2 <;>
    simp [hT]
  intro h
  rcases sr_log net "POST" farmUrl (some (farmBody w s)) "error" Msg.farmingFailed h with
    h2 | h2 <;> simp at h2

theorem cr_success_iff (net : Net) (w : String) (d2 : Json) :
    Event.log "info" (Msg.rewardsClaimed d2) ∈ (claim_rewards net w).1 ↔
      (safe_request net "POST" claimUrl (some (claimBody w))).2 = some d2
      ∧ d2.truthy = true := by
  simp only [claim_rewards]
  cases hR : (safe_request net "POST" claimUrl (some (claimBody w))).2 with
  | none =>
    simp
    intro h
    rcases sr_log net "POST" claimUrl (some (claimBody w)) "info" (Msg.rewardsClaimed d2) h with
      h2 | h2 <;> simp at h2
  | some d =>
    cases hd : d.truthy <;> simp [hd]
    · constructor
      · intro h
        rcases sr_log net "POST" claimUrl (some (claimBody w)) "info" (Msg.rewardsClaimed d2) h
          with h2 | h2 <;> simp at h2
      · rintro ⟨h1, h2⟩
        rw [h1] at hd
        rw [hd] at h2
        exact Bool.noConfusion h2
    · constructor
      · intro h
        rcases h with h | h
        · rcases sr_log net "POST" claimUrl (some (claimBody w)) "info" (Msg.rewardsClaimed d2) h
            with h2 | h2 <;> simp at h2
        · exact ⟨h.symm, by rw [h]; exact hd⟩
      · rintro ⟨h1, _⟩
        exact Or.inr h1.symm

theorem cr_failure_iff (net : Net) (w : String) :
    Event.log "error" Msg.claimFailed ∈ (claim_rewards net w).1 ↔
      pyTruthyOpt (safe_request net "POST" claimUrl (some (claimBody w))).2 = false := by
  simp only [claim_rewards]
  cases hR : (safe_request net "POST" claimUrl (some (claimBody w))).2 with
  | none => simp [pyTruthyOpt]
  | some d =>
    cases hd : d.truthy <;> simp [pyTruthyOpt, hd]
    intro h
    rcases sr_log net "POST" claimUrl (some (claimBody w)) "error" Msg.claimFailed h with
      h2 | h2 <;> simp at h2

theorem skr_success_iff (net : Net) (w : String) :
    Event.log "info" Msg.rewardsRestaked ∈ (stake_rewards net w).1 ↔
      pyTruthyOpt (safe_request net "POST" stakeUrl (some (stakeBody w))).2 = true := by
  simp only [stake_rewards]
  cases hT : pyTruthyOpt (safe_request net "POST" stakeUrl (some (stakeBody w))).2 <;>
    simp [hT]
  intro h
  rcases sr_log net "POST" stakeUrl (some (stakeBody w)) "info" Msg.rewardsRestaked h with
    h2 | h2 <;> simp at h2

theorem skr_failure_iff (net : Net) (w : String) :
    Event.log "error" Msg.restakeFailed ∈ (stake_rewards net w).1 ↔
      pyTruthyOpt (safe_request net "POST" stakeUrl (some (stakeBody w))).2 = false := by
  simp only [stake_rewards]
  cases hT : pyTruthyOpt (safe_request net "POST" stakeUrl (some (stakeBody w))).2 <;>
    simp [hT]
  intro h
  rcases sr_log net "POST" stakeUrl (some (stakeBody w)) "error" Msg.restakeFailed h with
    h2 | h2 <;> simp at h2

theorem pfa_null (net : Net) (w s : String) :
    (perform_farming_action net w s).2 = Json.null := by
  simp only [perform_farming_action]
  split <;> rfl

theorem cr_null (net : Net) (w : String) : (claim_rewards net w).2 = Json.null := by
  simp only [claim_rewards]
  split
  · split <;> rfl
  · rfl

theorem skr_null (net : Net) (w : String) : (stake_rewards net w).2 = Json.null := by
  simp only [stake_rewards]
  split <;> rfl

/-- C2: when `safe_request` reports absence (returns `None` after
exhausting its retries) for each read endpoint, every read operation
returns its defined default — 0 for the numeric reads, `False` for the
boolean reads — and raises no exception (the result is `Except.ok`). -/
theorem read_operations_default_on_absence (net : Net) (w : String)
    (h1 : (safe_request net "GET" (activityUrl w) none).2 = none)
    (h2 : (safe_request net "GET" peakUrl none).2 = none)
    (h3 : (safe_request net "GET" (rewardsUrl w) none).2 = none)
    (h4 : (safe_request net "GET" (stakingStatusUrl w) none).2 = none) :
    (get_activity_score net w).2 = Except.ok (Json.num 0)
  ∧ (is_peak_time net w).2 = Except.ok (Json.bool false)
  ∧ (get_current_rewards net w).2 = Except.ok (Json.num 0)
  ∧ (get_staking_status net w).2 = Except.ok (Json.bool false) := by
  refine ⟨?_, ?_, ?_, ?_⟩
  · simp [get_activity_score, h1]
  · simp [is_peak_time, h2]
  · simp [get_current_rewards, h3]
  · simp [get_staking_status, h4]

def c2Net : Net := ⟨fun _ _ _ => none⟩

/-- Witness for C2: under a network that always fails, all four read
operations return their defaults without raising. -/
theorem read_operations_default_on_absence_witness :
    (get_activity_score c2Net "w").2 = Except.ok (Json.num 0)
  ∧ (is_peak_time c2Net "w").2 = Except.ok (Json.bool false)
  ∧ (get_current_rewards c2Net "w").2 = Except.ok (Json.num 0)
  ∧ (get_staking_status c2Net "w").2 = Except.ok (Json.bool false) :=
  read_operations_default_on_absence c2Net "w" rfl rfl rfl rfl

def c6Net : Net := ⟨fun _ _ _ => some (Json.obj [("status", Json.str "ok")])⟩

/-- Counterexample to C6: with a network whose first attempt succeeds and
delivers the decoded payload `{"status": "ok"}`, `perform_farming_action`
nevertheless returns `None` (`Json.null`) to its caller — not the decoded
payload — so the claim that write operations return the raw decoded
payload unchanged is false. -/
theorem write_operations_claim_counterexample :
    (safe_request c6Net "POST" farmUrl (some (farmBody "w" "standard"))).2 =
      some (Json.obj [("status", Json.str "ok")])
  ∧ (perform_farming_action c6Net "w" "standard").2 = Json.null
  ∧ Json.null ≠ Json.obj [("status", Json.str "ok")] :=
  ⟨rfl, rfl, fun h => Json.noConfusion h⟩

/-- C6 amended: write operations do not return the decoded payload; each
branches internally on the truthiness of the payload, logs a success line
when it is truthy and a failure line otherwise, and always returns `None`
(`Json.null`), so the calling cycle cannot branch on presence or absence
of the result. -/
theorem write_operations_log_and_return_none (net : Net) (w s : String) :
    (perform_farming_action net w s).2 = Json.null
  ∧ (claim_rewards net w).2 = Json.null
  ∧ (stake_rewards net w).2 = Json.null
  ∧ (Event.log "info" (Msg.farmingPerformed s) ∈ (perform_farming_action net w s).1 ↔
      pyTruthyOpt (safe_request net "POST" farmUrl (some (farmBody w s))).2 = true)
  ∧ (∀ d, Event.log "info" (Msg.rewardsClaimed d) ∈ (claim_rewards net w).1 ↔
      (safe_request net "POST" claimUrl (some (claimBody w))).2 = some d ∧ d.truthy = true)
  ∧ (Event.log "info" Msg.rewardsRestaked ∈ (stake_rewards net w).1 ↔
      pyTruthyOpt (safe_request net "POST" stakeUrl (some (stakeBody w))).2 = true) := by
  refine ⟨pfa_null net w s, cr_null net w, skr_null net w, ?_, ?_, ?_⟩
  · rw [pfa_success_iff net w s s]
    simp
  · exact fun d => cr_success_iff net w d
  · exact skr_success_iff net w

/-- C9: a write call whose HTTP request succeeds but whose decoded payload
is falsy (for example the empty JSON object) is treated exactly like a
failed call — the operation logs its failure message at error level and
does not log its success message. -/
theorem write_operations_falsy_payload_treated_as_failure (net : Net) (w s : String) :
    (∀ j, (safe_request net "POST" farmUrl (some (farmBody w s))).2 = some j →
      j.truthy = false →
      Event.log "error" Msg.farmingFailed ∈ (perform_farming_action net w s).1
      ∧ ∀ s2, Event.log "info" (Msg.farmingPerformed s2) ∉ (perform_farming_action net w s).1)
  ∧ (∀ j, (safe_request net "POST" claimUrl (some (claimBody w))).2 = some j →
      j.truthy = false →
      Event.log "error" Msg.claimFailed ∈ (claim_rewards net w).1
      ∧ ∀ d, Event.log "info" (Msg.rewardsClaimed d) ∉ (claim_rewards net w).1)
  ∧ (∀ j, (safe_request net "POST" stakeUrl (some (stakeBody w))).2 = some j →
      j.truthy = false →
      Event.log "error" Msg.restakeFailed ∈ (stake_rewards net w).1
      ∧ Event.log "info" Msg.rewardsRestaked ∉ (stake_rewards net w).1) := by
  refine ⟨?_, ?_, ?_⟩
  · intro j hj ht
    constructor
    · rw [pfa_failure_iff net w s, hj]
      simp [pyTruthyOpt, ht]
    · intro s2 h
      rw [pfa_success_iff net w s s2, hj] at h
      simp [pyTruthyOpt, ht] at h
  · intro j hj ht
    constructor
    · rw [cr_failure_iff net w, hj]
      simp [pyTruthyOpt, ht]
    · intro d h
      rw [cr_success_iff net w d, hj] at h
      rcases h with ⟨h1, h2⟩
      rw [(Option.some.injEq _ _ ▸ h1 : j = d)] at ht
      rw [ht] at h2
      exact Bool.noConfusion h2
  · intro j hj ht
    constructor
    · rw [skr_failure_iff net w, hj]
      simp [pyTruthyOpt, ht]
    · intro h
      rw [skr_success_iff net w, hj] at h
      simp [pyTruthyOpt, ht] at h

def c9Net : Net := ⟨fun m _ _ => if m == "POST" then some (Json.obj []) else none⟩

/-- Witness for C9: a network whose POST requests all succeed with the
empty (falsy) JSON object makes every write operation log its failure
message. -/
theorem write_operations_falsy_payload_treated_as_failure_witness :
    Event.log "error" Msg.farmingFailed ∈ (perform_farming_action c9Net "w" "standard").1
  ∧ Event.log "error" Msg.claimFailed ∈ (claim_rewards c9Net "w").1
  ∧ Event.log "error" Msg.restakeFailed ∈ (stake_rewards c9Net "w").1 :=
  ⟨((write_operations_falsy_payload_treated_as_failure c9Net "w" "standard").1
      (Json.obj []) rfl rfl).1,
   ((write_operations_falsy_payload_treated_as_failure c9Net "w" "standard").2.1
      (Json.obj []) rfl rfl).1,
   ((write_operations_falsy_payload_treated_as_failure c9Net "w" "standard").2.2
      (Json.obj []) rfl rfl).1⟩

/-- `farming_cycle()`: read activity and peak flag, pick the strategy, log
it, then farm if the activity score is at least `ACTIVITY_THRESHOLD`,
otherwise log a skip with the observed score. -/
def farming_cycle (net : Net) (wallet : String) : List Event × Except String Unit :=
  let ra := get_activity_score net wallet
  match ra.2 with
  | Except.error e => (ra.1, Except.error e)
  | Except.ok activity =>
    let rp := is_peak_time net wallet
    match rp.2 with
    | Except.error e => (ra.1 ++ rp.1, Except.error e)
    | Except.ok peak =>
      let strategy := if peak.truthy then "peak" else "standard"
      let evs := ra.1 ++ rp.1 ++ [Event.log "info" (Msg.strategySelected strategy activity)]
      match pyGeNum activity ACTIVITY_THRESHOLD with
      | Except.error e => (evs, Except.error e)
      | Except.ok true =>
        let rf := perform_farming_action net wallet strategy
        (evs ++ rf.1, Except.ok ())
      | Except.ok false =>
        (evs ++ [Event.log "info" (Msg.activityTooLow activity)], Except.ok ())

/-- `compound_cycle()`: read the unclaimed amount; if at least
`REWARD_THRESHOLD`, claim, sleep 5 to let the claim settle, stake, and
log the compounded amount; otherwise log that rewards are insufficient. -/
def compound_cycle (net : Net) (wallet : String) : List Event × Except String Unit :=
  let rr := get_current_rewards net wallet
  match rr.2 with
  | Except.error e => (rr.1, Except.error e)
  | Except.ok rewards =>
    match pyGeNum rewards REWARD_THRESHOLD with
    | Except.error e => (rr.1, Except.error e)
    | Except.ok true =>
      let rc := claim_rewards net wallet
      let rs := stake_rewards net wallet
      (rr.1 ++ rc.1 ++ Event.sleep 5 :: (rs.1 ++ [Event.log "info" (Msg.compounded rewards)]),
        Except.ok ())
    | Except.ok false =>
      (rr.1 ++ [Event.log "info" Msg.notEnoughRewards], Except.ok ())

/-- `check_staking()`: read the staking flag; if falsy, log and stake;
otherwise log that staking is active. -/
def check_staking (net : Net) (wallet : String) : List Event × Except String Unit :=
  let rs := get_staking_status net wallet
  match rs.2 with
  | Except.error e => (rs.1, Except.error e)
  | Except.ok staked =>
    if staked.truthy then
      (rs.1 ++ [Event.log "info" Msg.stakingActive], Except.ok ())
    else
      let rk := stake_rewards net wallet
      (rs.1 ++ Event.log "info" Msg.walletNotStaked :: rk.1, Except.ok ())

theorem gas_trace (net : Net) (w : String) :
    (get_activity_score net w).1 = (safe_request net "GET" (activityUrl w) none).1 := rfl

theorem ipt_trace (net : Net) (w : String) :
    (is_peak_time net w).1 = (safe_request net "GET" peakUrl none).1 := rfl

theorem gss_trace (net : Net) (w : String) :
    (get_staking_status net w).1 = (safe_request net "GET" (stakingStatusUrl w) none).1 := rfl

theorem gas_http (net : Net) (w : String) :
    ∀ m2 u2 b2, Event.http m2 u2 b2 ∈ (get_activity_score net w).1 → m2 = "GET" := by
  intro m2 u2 b2 h
  rw [gas_trace] at h
  exact (sr_http net _ _ none m2 u2 b2 h).1

theorem ipt_http (net : Net) (w : String) :
    ∀ m2 u2 b2, Event.http m2 u2 b2 ∈ (is_peak_time net w).1 → m2 = "GET" := by
  intro m2 u2 b2 h
  rw [ipt_trace] at h
  exact (sr_http net _ _ none m2 u2 b2 h).1

theorem gss_http (net : Net) (w : String) :
    ∀ m2 u2 b2, Event.http m2 u2 b2 ∈ (get_staking_status net w).1 → m2 = "GET" := by
  intro m2 u2 b2 h
  rw [gss_trace] at h
  exact (sr_http net _ _ none m2 u2 b2 h).1

/-- C3: the farming cycle submits a farm action (a POST to the farm
endpoint) if and only if the observed activity score is at least
`ACTIVITY_THRESHOLD = 75`; every submitted farm body carries the strategy
"peak" exactly when the observed peak flag is truthy (else "standard");
below the threshold a skip is logged with the observed score and no farm
action is submitted. -/
theorem farming_cycle_farms_iff_threshold (net : Net) (w : String) (av pv : Json) (a : ℚ)
    (ha : (get_activity_score net w).2 = Except.ok av)
    (hn : av.asNum = some a)
    (hp : (is_peak_time net w).2 = Except.ok pv) :
    ((∃ b, Event.http "POST" farmUrl b ∈ (farming_cycle net w).1) ↔ ACTIVITY_THRESHOLD ≤ a)
  ∧ (∀ b, Event.http "POST" farmUrl b ∈ (farming_cycle net w).1 →
      b = some (farmBody w (if pv.truthy then "peak" else "standard")))
  ∧ (ACTIVITY_THRESHOLD ≤ a →
      Event.http "POST" farmUrl (some (farmBody w (if pv.truthy then "peak" else "standard")))
        ∈ (farming_cycle net w).1)
  ∧ (¬ ACTIVITY_THRESHOLD ≤ a →
      Event.log "info" (Msg.activityTooLow av) ∈ (farming_cycle net w).1
      ∧ ∀ b, Event.http "POST" farmUrl b ∉ (farming_cycle net w).1) := by
  rcases le_or_lt ACTIVITY_THRESHOLD a with hge | hlt
  · have hd : decide (ACTIVITY_THRESHOLD ≤ a) = true := decide_eq_true hge
    have key : (farming_cycle net w).1 =
        (get_activity_score net w).1 ++ (is_peak_time net w).1 ++
          [Event.log "info" (Msg.strategySelected (if pv.truthy then "peak" else "standard") av)]
          ++ (perform_farming_action net w (if pv.truthy then "peak" else "standard")).1 := by
      simp only [farming_cycle, ha, hp, pyGeNum, hn, hd]
    refine ⟨?_, ?_, ?_, ?_⟩
    · constructor
      · intro _
        exact hge
      · intro _
        refine ⟨some (farmBody w (if pv.truthy then "peak" else "standard")), ?_⟩
        rw [key]
        simp only [List.mem_append]
        right
        exact pfa_mem net w _
    · intro b hb
      rw [key] at hb
      simp only [List.mem_append] at hb
      rcases hb with ((hb | hb) | hb) | hb
      · exact absurd (gas_http net w _ _ _ hb) (by simp)
      · exact absurd (ipt_http net w _ _ _ hb) (by simp)
      · simp at hb
      · exact (pfa_http net w _ _ _ _ hb).2.2
    · intro _
      rw [key]
      simp only [List.mem_append]
      right
      exact pfa_mem net w _
    · intro hcon
      exact absurd hge hcon
  · have hd : decide (ACTIVITY_THRESHOLD ≤ a) = false := decide_eq_false (not_le.mpr hlt)
    have key : (farming_cycle net w).1 =
        (get_activity_score net w).1 ++ (is_peak_time net w).1 ++
          [Event.log "info" (Msg.strategySelected (if pv.truthy then "peak" else "standard") av)]
          ++ [Event.log "info" (Msg.activityTooLow av)] := by
      simp only [farming_cycle, ha, hp, pyGeNum, hn, hd]
    have nofarm : ∀ b, Event.http "POST" farmUrl b ∉ (farming_cycle net w).1 := by
      intro b hb
      rw [key] at hb
      simp only [List.mem_append] at hb
      rcases hb with ((hb | hb) | hb) | hb
      · exact absurd (gas_http net w _ _ _ hb) (by simp)
      · exact absurd (ipt_http net w _ _ _ hb) (by simp)
      · simp at hb
      · simp at hb
    refine ⟨?_, ?_, ?_, ?_⟩
    · constructor
      · intro hex
        rcases hex with ⟨b, hb⟩
        exact absurd hb (nofarm b)
      · intro hcon
        exact absurd hcon (not_le.mpr hlt)
    · intro b hb
      exact absurd hb (nofarm b)
    · intro hcon
      exact absurd hcon (not_le.mpr hlt)
    · intro _
      refine ⟨?_, nofarm⟩
      rw [key]
      simp only [List.mem_append]
      right
      simp

def c3Net : Net :=
  ⟨fun _ u _ => if u == peakUrl then some (Json.obj [("isPeak", Json.bool false)])
    else some (Json.obj [("activityScore", Json.num 80)])⟩

def c3LowNet : Net :=
  ⟨fun _ u _ => if u == peakUrl then some (Json.obj [("isPeak", Json.bool false)])
    else some (Json.obj [("activityScore", Json.num 50)])⟩

/-- Witness for C3: with score 80 and peak flag false, a farm action with
strategy "standard" is submitted; with score 50, a skip is logged with
the observed score. -/
theorem farming_cycle_farms_iff_threshold_witness :
    Event.http "POST" farmUrl (some (farmBody "w" "standard")) ∈ (farming_cycle c3Net "w").1
  ∧ Event.log "info" (Msg.activityTooLow (Json.num 50)) ∈ (farming_cycle c3LowNet "w").1 := by
  constructor
  · have T := farming_cycle_farms_iff_threshold c3Net "w" (Json.num 80) (Json.bool false) 80
      rfl rfl rfl
    have h := T.2.2.1 (by norm_num [ACTIVITY_THRESHOLD])
    simpa [Json.truthy] using h
  · have T := farming_cycle_farms_iff_threshold c3LowNet "w" (Json.num 50) (Json.bool false) 50
      rfl rfl rfl
    exact (T.2.2.2 (by norm_num [ACTIVITY_THRESHOLD])).1

theorem claim_stake_urls_distinct : claimUrl ≠ stakeUrl := by
  simp [claimUrl, stakeUrl, API_BASE]

/-- C4: the compounding cycle submits a claim and a stake (POSTs to the
claim and stake endpoints) if and only if the observed unclaimed amount
is at least `REWARD_THRESHOLD = 1`; when it does, the trace splits around
the settle delay `sleep 5`: every claim submission precedes the delay and
every stake submission follows it. -/
theorem compound_cycle_claim_then_stake_iff_threshold (net : Net) (w : String)
    (rv : Json) (x : ℚ)
    (hr : (get_current_rewards net w).2 = Except.ok rv)
    (hn : rv.asNum = some x) :
    ((∃ b, Event.http "POST" claimUrl b ∈ (compound_cycle net w).1) ↔ REWARD_THRESHOLD ≤ x)
  ∧ ((∃ b, Event.http "POST" stakeUrl b ∈ (compound_cycle net w).1) ↔ REWARD_THRESHOLD ≤ x)
  ∧ (REWARD_THRESHOLD ≤ x →
      ∃ A B, (compound_cycle net w).1 = A ++ Event.sleep 5 :: B
        ∧ (∃ b, Event.http "POST" claimUrl b ∈ A)
        ∧ (∃ b, Event.http "POST" stakeUrl b ∈ B)
        ∧ (∀ b, Event.http "POST" claimUrl b ∉ B)
        ∧ (∀ b, Event.http "POST" stakeUrl b ∉ A)) := by
  rcases le_or_lt REWARD_THRESHOLD x with hge | hlt
  · have hd : decide (REWARD_THRESHOLD ≤ x) = true := decide_eq_true hge
    have key : (compound_cycle net w).1 =
        (get_current_rewards net w).1 ++ (claim_rewards net w).1 ++
          Event.sleep 5 ::
            ((stake_rewards net w).1 ++ [Event.log "info" (Msg.compounded rv)]) := by
      simp only [compound_cycle, hr, pyGeNum, hn, hd]
    have hcB : ∀ b, Event.http "POST" claimUrl b ∉
        (stake_rewards net w).1 ++ [Event.log "info" (Msg.compounded rv)] := by
      intro b hb
      rw [List.mem_append] at hb
      rcases hb with hb | hb
      · exact claim_stake_urls_distinct (skr_http net w _ _ _ hb).2.1
      · simp at hb
    have hsA : ∀ b, Event.http "POST" stakeUrl b ∉
        (get_current_rewards net w).1 ++ (claim_rewards net w).1 := by
      intro b hb
      rw [List.mem_append] at hb
      rcases hb with hb | hb
      · exact absurd (gcr_http net w _ _ _ hb).1 (by simp)
      · exact claim_stake_urls_distinct ((cr_http net w _ _ _ hb).2.1).symm
    refine ⟨?_, ?_, ?_⟩
    · constructor
      · intro _
        exact hge
      · intro _
        refine ⟨some (claimBody w), ?_⟩
        rw [key]
        simp only [List.mem_append, List.mem_cons]
        exact Or.inl (Or.inr (cr_mem net w))
    · constructor
      · intro _
        exact hge
      · intro _
        refine ⟨some (stakeBody w), ?_⟩
        rw [key]
        simp only [List.mem_append, List.mem_cons]
        exact Or.inr (Or.inr (Or.inl (skr_mem net w)))
    · intro _
      refine ⟨(get_current_rewards net w).1 ++ (claim_rewards net w).1,
        (stake_rewards net w).1 ++ [Event.log "info" (Msg.compounded rv)], ?_, ?_, ?_, hcB, hsA⟩
      · rw [key]
      · refine ⟨some (claimBody w), ?_⟩
        rw [List.mem_append]
        exact Or.inr (cr_mem net w)
      · refine ⟨some (stakeBody w), ?_⟩
        rw [List.mem_append]
        exact Or.inl (skr_mem net w)
  · have hd : decide (REWARD_THRESHOLD ≤ x) = false := decide_eq_false (not_le.mpr hlt)
    have key : (compound_cycle net w).1 =
        (get_current_rewards net w).1 ++ [Event.log "info" Msg.notEnoughRewards] := by
      simp only [compound_cycle, hr, pyGeNum, hn, hd]
    have nopost : ∀ u b, Event.http "POST" u b ∉ (compound_cycle net w).1 := by
      intro u b hb
      rw [key] at hb
      rw [List.mem_append] at hb
      rcases hb with hb | hb
      · exact absurd (gcr_http net w _ _ _ hb).1 (by simp)
      · simp at hb
    refine ⟨?_, ?_, ?_⟩
    · constructor
      · intro hex
        rcases hex with ⟨b, hb⟩
        exact absurd hb (nopost _ b)
      · intro hcon
        exact absurd hcon (not_le.mpr hlt)
    · constructor
      · intro hex
        rcases hex with ⟨b, hb⟩
        exact absurd hb (nopost _ b)
      · intro hcon
        exact absurd hcon (not_le.mpr hlt)
    · intro hcon
      exact absurd hcon (not_le.mpr hlt)

def c4Net : Net :=
  ⟨fun m _ _ => if m == "GET" then some (Json.obj [("unclaimed", Json.num (5/2))])
    else some (Json.obj [("tx", Json.str "id")])⟩

/-- Witness for C4: with unclaimed amount 2.5, the compounding cycle
claims and stakes, with the claim before the settle delay and the stake
after it. -/
theorem compound_cycle_claim_then_stake_iff_threshold_witness :
    (∃ b, Event.http "POST" claimUrl b ∈ (compound_cycle c4Net "w").1)
  ∧ (∃ A B, (compound_cycle c4Net "w").1 = A ++ Event.sleep 5 :: B
      ∧ (∃ b, Event.http "POST" claimUrl b ∈ A)
      ∧ (∃ b, Event.http "POST" stakeUrl b ∈ B)
      ∧ (∀ b, Event.http "POST" claimUrl b ∉ B)
      ∧ (∀ b, Event.http "POST" stakeUrl b ∉ A)) := by
  have T := compound_cycle_claim_then_stake_iff_threshold c4Net "w" (Json.num (5/2)) (5/2)
    rfl rfl
  have hge : REWARD_THRESHOLD ≤ (5/2 : ℚ) := by norm_num [REWARD_THRESHOLD]
  exact ⟨T.1.mpr hge, T.2.2 hge⟩

/-- C5: the staking-check cycle submits a stake action if and only if the
observed staking flag is falsy; when the flag is truthy it logs that
staking is active and submits no POST at all. -/
theorem check_staking_stakes_iff_not_staked (net : Net) (w : String) (sv : Json)
    (hs : (get_staking_status net w).2 = Except.ok sv) :
    ((∃ b, Event.http "POST" stakeUrl b ∈ (check_staking net w).1) ↔ sv.truthy = false)
  ∧ (sv.truthy = true →
      Event.log "info" Msg.stakingActive ∈ (check_staking net w).1
      ∧ ∀ u b, Event.http "POST" u b ∉ (check_staking net w).1) := by
  cases ht : sv.truthy
  · have key : (check_staking net w).1 =
        (get_staking_status net w).1 ++
          Event.log "info" Msg.walletNotStaked :: (stake_rewards net w).1 := by
      simp only [check_staking, hs, ht]
      simp
    refine ⟨?_, ?_⟩
    · constructor
      · intro _
        rfl
      · intro _
        refine ⟨some (stakeBody w), ?_⟩
        rw [key]
        simp only [List.mem_append, List.mem_cons]
        exact Or.inr (Or.inr (skr_mem net w))
    · intro hcon
      exact absurd hcon (by simp)
  · have key : (check_staking net w).1 =
        (get_staking_status net w).1 ++ [Event.log "info" Msg.stakingActive] := by
      simp only [check_staking, hs, ht]
      simp
    refine ⟨?_, ?_⟩
    · constructor
      · intro hex
        rcases hex with ⟨b, hb⟩
        rw [key] at hb
        rw [List.mem_append] at hb
        rcases hb with hb | hb
        · exact absurd (gss_http net w _ _ _ hb) (by simp)
        · simp at hb
      · intro hcon
        exact absurd hcon (by simp)
    · intro _
      refine ⟨?_, ?_⟩
      · rw [key]
        simp
      · intro u b hb
        rw [key] at hb
        rw [List.mem_append] at hb
        rcases hb with hb | hb
        · exact absurd (gss_http net w _ _ _ hb) (by simp)
        · simp at hb

def c5Net : Net :=
  ⟨fun m _ _ => if m == "GET" then some (Json.obj [("isStaked", Json.bool false)])
    else some (Json.obj [("ok", Json.num 1)])⟩

/-- Witness for C5: with a falsy staking flag, a stake action is
submitted. -/
theorem check_staking_stakes_iff_not_staked_witness :
    ∃ b, Event.http "POST" stakeUrl b ∈ (check_staking c5Net "w").1 := by
  have T := check_staking_stakes_iff_not_staked c5Net "w" (Json.bool false) rfl
  exact T.1.mpr rfl

/-- A registered periodic job of the scheduling primitive: task id,
interval, and next due time. -/
structure Job where
  id : Nat
  interval : Nat
  nextDue : Nat
deriving DecidableEq

/-- State of the scheduler loop: the registered jobs and the current
time. -/
structure SchedState where
  jobs : List Job
  time : Nat

/-- Modelled from the spec: the scheduling primitive used by `start_bot`
(the third-party `schedule` library, which is not part of this
repository).  Per §4.4 of the spec, `schedule.run_pending()` checks all
tasks for due execution and runs every due task synchronously, one after
another; running a job emits a `taskRun` event, executes the task body,
and — only when the body returns normally — reschedules the job one
interval after the current time.  An exception raised by a task body
propagates out of `run_pending` at once: the raising job keeps its due
time and the jobs after it are not run on this tick. -/
def run_pending (run : Nat → Nat → List Event × Except String Unit) (time : Nat) :
    List Job → List Job × List Event × Bool
  | [] => ([], [], false)
  | j :: rest =>
    if j.nextDue ≤ time then
      let r := run j.id time
      match r.2 with
      | Except.error _ => (j :: rest, Event.taskRun j.id :: r.1, true)
      | Except.ok _ =>
        let k := run_pending run time rest
        ({ j with nextDue := time + j.interval } :: k.1,
          (Event.taskRun j.id :: r.1) ++ k.2.1, k.2.2)
    else
      let k := run_pending run time rest
      (j :: k.1, k.2.1, k.2.2)

/-- One iteration of the `while True` loop of `start_bot`: run the
pending tasks then sleep 5; when a task raised, log the crash and sleep
10 instead, and continue. -/
def loop_step (run : Nat → Nat → List Event × Except String Unit) (st : SchedState) :
    SchedState × List Event :=
  let r := run_pending run st.time st.jobs
  if r.2.2 then
    ({ jobs := r.1, time := st.time + 10 },
      r.2.1 ++ [Event.log "error" Msg.botCrashed, Event.sleep 10])
  else
    ({ jobs := r.1, time := st.time + 5 }, r.2.1 ++ [Event.sleep 5])

/-- Iterated scheduler loop (the loop has no terminal state; this gives
its state after `n` iterations). -/
def loop_iter (run : Nat → Nat → List Event × Except String Unit) :
    Nat → SchedState → SchedState
  | 0, st => st
  | n+1, st => loop_iter run n (loop_step run st).1

/-- The three jobs registered by `start_bot`, in seconds: farming every
15 minutes (id 0), compounding every 60 minutes (id 1), staking-check
every 30 minutes (id 2); each is first due one interval after
registration. -/
def start_bot_jobs : List Job :=
  [⟨0, 15*60, 15*60⟩, ⟨1, 60*60, 60*60⟩, ⟨2, 30*60, 30*60⟩]

/-- Whether some due task raised during this tick's `run_pending`. -/
def stepRaised (run : Nat → Nat → List Event × Except String Unit) (st : SchedState) : Bool :=
  (run_pending run st.time st.jobs).2.2

theorem rp_ids (run : Nat → Nat → List Event × Except String Unit) (t : Nat) :
    ∀ jobs, ((run_pending run t jobs).1).map Job.id = jobs.map Job.id := by
  intro jobs
  induction jobs with
  | nil => simp [run_pending]
  | cons j rest ih =>
    simp only [run_pending]
    by_cases hdue : j.nextDue ≤ t
    · rw [if_pos hdue]
      cases hr : (run j.id t).2 with
      | error e => simp
      | ok v => simp [ih]
    · rw [if_neg hdue]
      simp [ih]

theorem rp_raise (run : Nat → Nat → List Event × Except String Unit) (t : Nat) :
    ∀ jobs, (run_pending run t jobs).2.2 = true →
      ∃ j, j ∈ jobs ∧ j ∈ (run_pending run t jobs).1 ∧ j.nextDue ≤ t
        ∧ ∃ e, (run j.id t).2 = Except.error e := by
  intro jobs
  induction jobs with
  | nil => intro h; simp [run_pending] at h
  | cons j rest ih =>
    intro h
    simp only [run_pending] at h ⊢
    by_cases hdue : j.nextDue ≤ t
    · rw [if_pos hdue] at h ⊢
      cases hr : (run j.id t).2 with
      | error e =>
        exact ⟨j, List.mem_cons_self j rest, by simp, hdue, e, hr⟩
      | ok v =>
        rw [hr] at h
        dsimp only at h ⊢
        rcases ih h with ⟨j2, hj2, hj2out, hj2due, e, he⟩
        exact ⟨j2, List.mem_cons_of_mem j hj2, List.mem_cons_of_mem _ hj2out, hj2due, e, he⟩
    · rw [if_neg hdue] at h ⊢
      rcases ih h with ⟨j2, hj2, hj2out, hj2due, e, he⟩
      exact ⟨j2, List.mem_cons_of_mem j hj2, List.mem_cons_of_mem _ hj2out, hj2due, e, he⟩

theorem rp_runs_due (run : Nat → Nat → List Event × Except String Unit) (t : Nat) :
    ∀ jobs, (run_pending run t jobs).2.2 = false →
      ∀ j, j ∈ jobs → j.nextDue ≤ t → Event.taskRun j.id ∈ (run_pending run t jobs).2.1 := by
  intro jobs
  induction jobs with
  | nil => intro _ j hj; simp at hj
  | cons j rest ih =>
    intro h j2 hj2 hdue2
    simp only [run_pending] at h ⊢
    by_cases hdue : j.nextDue ≤ t
    · rw [if_pos hdue] at h ⊢
      cases hr : (run j.id t).2 with
      | error e =>
        rw [hr] at h
        simp at h
      | ok v =>
        rw [hr] at h
        dsimp only at h ⊢
        rcases List.mem_cons.mp hj2 with h2 | h2
        · rw [h2]
          simp
        · simp only [List.cons_append, List.mem_cons, List.mem_append]
          right
          right
          exact ih h j2 h2 hdue2
    · rw [if_neg hdue] at h ⊢
      rcases List.mem_cons.mp hj2 with h2 | h2
      · rw [h2] at hdue2
        exact absurd hdue2 hdue
      · exact ih h j2 h2 hdue2

theorem loop_time (run : Nat → Nat → List Event × Except String Unit) :
    ∀ n st, st.time + 5 * n ≤ (loop_iter run n st).time := by
  intro n
  induction n with
  | zero => intro st; simp [loop_iter]
  | succ m ih =>
    intro st
    have hstep : st.time + 5 ≤ (loop_step run st).1.time := by
      simp only [loop_step]
      by_cases hc : (run_pending run st.time st.jobs).2.2 = true
      · rw [if_pos hc]
        show st.time + 5 ≤ st.time + 10
        omega
      · rw [if_neg hc]
    have := ih (loop_step run st).1
    simp only [loop_iter]
    omega

/-- C7: the scheduler loop is crash-proof.  Every iteration preserves the
registered tasks.  When a due task raises, the loop logs a crash event,
applies the 10-unit cooldown, and the raising task stays registered with
its due time unchanged (so it is still due).  In any iteration whose due
tasks all return normally, every due task — in particular one that
raised earlier — is run.  And the loop keeps making progress forever:
after `n` iterations the clock has advanced by at least `5*n`, raises or
not. -/
theorem scheduler_survives_task_errors (run : Nat → Nat → List Event × Except String Unit)
    (st : SchedState) :
    ((loop_step run st).1.jobs.map Job.id = st.jobs.map Job.id)
  ∧ (stepRaised run st = true →
      Event.log "error" Msg.botCrashed ∈ (loop_step run st).2
      ∧ Event.sleep 10 ∈ (loop_step run st).2
      ∧ (loop_step run st).1.time = st.time + 10
      ∧ ∃ j, j ∈ st.jobs ∧ j ∈ (loop_step run st).1.jobs ∧ j.nextDue ≤ st.time
          ∧ ∃ e, (run j.id st.time).2 = Except.error e)
  ∧ (stepRaised run st = false →
      ∀ j, j ∈ st.jobs → j.nextDue ≤ st.time → Event.taskRun j.id ∈ (loop_step run st).2)
  ∧ (∀ n, st.time + 5 * n ≤ (loop_iter run n st).time) := by
  refine ⟨?_, ?_, ?_, fun n => loop_time run n st⟩
  · simp only [loop_step]
    by_cases hc : (run_pending run st.time st.jobs).2.2 = true
    · rw [if_pos hc]
      simp [rp_ids]
    · rw [if_neg hc]
      simp [rp_ids]
  · intro h
    rw [stepRaised] at h
    simp only [loop_step, h, if_pos]
    refine ⟨by simp, by simp, by simp, ?_⟩
    rcases rp_raise run st.time st.jobs h with ⟨j, hj, hjout, hjdue, e, he⟩
    exact ⟨j, hj, by simpa using hjout, hjdue, e, he⟩
  · intro h j hj hdue
    rw [stepRaised] at h
    simp only [loop_step, h]
    simp only [Bool.false_eq_true, if_false, List.mem_append]
    left
    exact rp_runs_due run st.time st.jobs h j hj hdue

def c7run : Nat → Nat → List Event × Except String Unit :=
  fun id t => ([], if id == 0 && t == 900 then Except.error "boom" else Except.ok ())

def c7st : SchedState := ⟨start_bot_jobs, 900⟩

/-- Witness for C7: at time 900 the farming task is due and raises; the
loop logs the crash and sleeps 10, and on the very next iteration the
same task (still registered, still due) is run. -/
theorem scheduler_survives_task_errors_witness :
    Event.log "error" Msg.botCrashed ∈ (loop_step c7run c7st).2
  ∧ Event.sleep 10 ∈ (loop_step c7run c7st).2
  ∧ Event.taskRun 0 ∈ (loop_step c7run (loop_step c7run c7st).1).2 := by
  have T1 := scheduler_survives_task_errors c7run c7st
  have h := T1.2.1 rfl
  refine ⟨h.1, h.2.1, ?_⟩
  have T2 := scheduler_survives_task_errors c7run (loop_step c7run c7st).1
  exact T2.2.2.1 rfl ⟨0, 900, 900⟩ (by decide) (by decide)

/-- Process configuration as assembled at module load. -/
structure Config where
  API_KEY : String
  WALLET_ADDRESS : String
  API_BASE : String

/-- Python truthiness of an `os.getenv` result: `None` and the empty
string are falsy. -/
def strTruthy : Option String → Bool
  | none => false
  | some s => s != ""

/-- Module-level startup of `bot.py`: read `API_KEY` and `WALLET_ADDRESS`
from the environment, raise `EnvironmentError` when either is missing or
empty (`if not API_KEY or not WALLET_ADDRESS`), and fix the hard-coded
`API_BASE`. -/
def startup (env : String → Option String) : Except String Config :=
  let key := env "API_KEY"
  let wallet := env "WALLET_ADDRESS"
  if !strTruthy key || !strTruthy wallet then
    Except.error "Missing API_KEY or WALLET_ADDRESS in .env file"
  else
    Except.ok ⟨key.getD "", wallet.getD "", API_BASE⟩

/-- Process entry: a startup error propagates before the scheduling loop
is ever entered; otherwise `start_bot` logs the start banner and enters
the loop with the three registered jobs at time 0. -/
def bot_main (env : String → Option String) : Except String (SchedState × List Event) :=
  match startup env with
  | Except.error e => Except.error e
  | Except.ok _ => Except.ok (⟨start_bot_jobs, 0⟩, [Event.log "info" Msg.botStarted])

theorem strTruthy_false_iff (o : Option String) :
    strTruthy o = false ↔ o = none ∨ o = some "" := by
  cases o with
  | none => simp [strTruthy]
  | some s => simp [strTruthy]

/-- C8: the process refuses to start (the startup error propagates before
the scheduling loop) exactly when the account identifier or the bearer
credential is missing or empty; and in every run that does start, all
three configuration items — credential, account identifier and API base
address — are present and non-empty (the base address is a hard-coded
non-empty constant, so a missing or empty base address can never occur). -/
theorem startup_requires_config (env : String → Option String) :
    ((bot_main env = Except.error "Missing API_KEY or WALLET_ADDRESS in .env file") ↔
      (env "API_KEY" = none ∨ env "API_KEY" = some ""
        ∨ env "WALLET_ADDRESS" = none ∨ env "WALLET_ADDRESS" = some ""))
  ∧ (∀ cfg, startup env = Except.ok cfg →
      cfg.API_KEY ≠ "" ∧ cfg.WALLET_ADDRESS ≠ "" ∧ cfg.API_BASE ≠ "") := by
  by_cases hc : (!strTruthy (env "API_KEY") || !strTruthy (env "WALLET_ADDRESS")) = true
  · have hS : startup env = Except.error "Missing API_KEY or WALLET_ADDRESS in .env file" := by
      simp only [startup]
      rw [if_pos hc]
    constructor
    · constructor
      · intro _
        rcases Bool.or_eq_true_iff.mp hc with hk | hw
        · rcases (strTruthy_false_iff (env "API_KEY")).mp (by simpa using hk) with h | h
          · exact Or.inl h
          · exact Or.inr (Or.inl h)
        · rcases (strTruthy_false_iff (env "WALLET_ADDRESS")).mp (by simpa using hw)
            with h | h
          · exact Or.inr (Or.inr (Or.inl h))
          · exact Or.inr (Or.inr (Or.inr h))
      · intro _
        simp only [bot_main, hS]
    · intro cfg hcfg
      rw [hS] at hcfg
      exact Except.noConfusion hcfg
  · have hk : strTruthy (env "API_KEY") = true := by
      cases h1 : strTruthy (env "API_KEY")
      · rw [h1] at hc
        simp at hc
      · rfl
    have hw : strTruthy (env "WALLET_ADDRESS") = true := by
      cases h2 : strTruthy (env "WALLET_ADDRESS")
      · rw [h2] at hc
        simp at hc
      · rfl
    have hS : startup env =
        Except.ok ⟨(env "API_KEY").getD "", (env "WALLET_ADDRESS").getD "", API_BASE⟩ := by
      simp only [startup]
      rw [if_neg hc]
    constructor
    · constructor
      · intro hmain
        simp only [bot_main, hS] at hmain
        exact Except.noConfusion hmain
      · intro hcond
        exfalso
        rcases hcond with h | h | h | h
        · rw [h] at hk
          simp [strTruthy] at hk
        · rw [h] at hk
          simp [strTruthy] at hk
        · rw [h] at hw
          simp [strTruthy] at hw
        · rw [h] at hw
          simp [strTruthy] at hw
    · intro cfg hcfg
      rw [hS] at hcfg
      have hcfg2 := Except.ok.inj hcfg
      rw [← hcfg2]
      refine ⟨?_, ?_, ?_⟩
      · rcases henv : env "API_KEY" with _ | s
        · rw [henv] at hk
          simp [strTruthy] at hk
        · rw [henv] at hk
          simp [strTruthy] at hk
          simp [henv, hk]
      · rcases henv : env "WALLET_ADDRESS" with _ | s
        · rw [henv] at hw
          simp [strTruthy] at hw
        · rw [henv] at hw
          simp [strTruthy] at hw
          simp [henv, hw]
      · simp [API_BASE]

def c8EnvBad : String → Option String := fun _ => none

def c8EnvGood : String → Option String :=
  fun k => if k == "API_KEY" then some "key" else some "0xabc"

/-- Witness for C8: with an empty environment the process refuses to
start with the startup error; with both variables set, startup succeeds
and every configuration item is non-empty. -/
theorem startup_requires_config_witness :
    bot_main c8EnvBad = Except.error "Missing API_KEY or WALLET_ADDRESS in .env file"
  ∧ ∃ cfg, startup c8EnvGood = Except.ok cfg
      ∧ cfg.API_KEY ≠ "" ∧ cfg.WALLET_ADDRESS ≠ "" ∧ cfg.API_BASE ≠ "" := by
  constructor
  · exact (startup_requires_config c8EnvBad).1.mpr (Or.inl rfl)
  · exact ⟨⟨"key", "0xabc", API_BASE⟩, rfl, (startup_requires_config c8EnvGood).2 _ rfl⟩
